import Mathlib

/-!
Verification development for a minimal Rust HTTP/1.x server.

The Rust sources are shallowly embedded: Rust strings become `List Char`
(written `Str`), `HashMap<String, String>` becomes an association list with
replace-on-insert semantics (`insertKV`), asynchronous handlers become pure
Lean functions, and fallible operations return `Except`/`Option`.  A Rust
`panic!` is made observable through an explicit outcome constructor.
-/

/-- Strings of the embedded program: Rust `String` / `&str` as a list of
characters (the lossily decoded text; for ASCII inputs this coincides with
the raw byte sequence). -/
abbrev Str := List Char

/-- Shorthand turning a Lean string literal into the embedded string type. -/
def chars (s : String) : Str := s.data

/-- Models Rust `str::split(c)` for a single-character separator: splits the
list at every occurrence of `c`, keeping empty pieces. -/
def splitOnChar (c : Char) : Str → List Str
  | [] => [[]]
  | x :: xs =>
    match splitOnChar c xs with
    | [] => [[]]
    | h :: t => if x = c then [] :: h :: t else (x :: h) :: t

/-- Models `path.split('/').filter(|s| !s.is_empty())` from `router.rs`:
the nonempty `/`-separated segments of a path or pattern. -/
def segsOf (s : Str) : List Str := (splitOnChar '/' s).filter (fun seg => seg ≠ [])

/-- Models Rust whitespace for the ASCII range (`char::is_whitespace` on the
inputs this development evaluates; the Unicode-only whitespace code points are
not modelled). -/
def isWS (c : Char) : Bool :=
  c = ' ' || c = '\t' || c = '\n' || c = '\r' || c = Char.ofNat 11 || c = Char.ofNat 12

/-- Splitting at every character satisfying a predicate, keeping empty pieces. -/
def splitOnPred (p : Char → Bool) : Str → List Str
  | [] => [[]]
  | x :: xs =>
    match splitOnPred p xs with
    | [] => [[]]
    | h :: t => if p x then [] :: h :: t else (x :: h) :: t

/-- Models Rust `str::split_whitespace`: split on whitespace, dropping empty
pieces (hence splitting on whitespace runs). -/
def splitWS (s : Str) : List Str := (splitOnPred isWS s).filter (fun seg => seg ≠ [])

/-- Does `sep` occur at the very start of `s`? -/
def beginsWith : Str → Str → Bool
  | [], _ => true
  | _ :: _, [] => false
  | a :: as, b :: bs => a = b && beginsWith as bs

/-- Index of the first occurrence of `sep` in `s`, models Rust `str::find`
for a string pattern. -/
def findSub (sep : Str) : Str → Option Nat
  | [] => if beginsWith sep [] then some 0 else none
  | x :: xs =>
    if beginsWith sep (x :: xs) then some 0
    else (findSub sep xs).map (· + 1)

/-- Does `sep` occur anywhere in `s`?  Models the
`request_data.windows(4).any(|w| w == b"\r\n\r\n")` check of `server.rs`. -/
def containsSeq (sep s : Str) : Bool := (findSub sep s).isSome

/-- The `\r\n\r\n` header terminator. -/
def crlf2 : Str := chars "\r\n\r\n"

/-- The `\r\n` line terminator. -/
def crlf : Str := chars "\r\n"

/-- Models the two `parts.next()` calls on `raw_str.split("\r\n\r\n")` in
`http.rs::Request::parse`: the first piece, and the SECOND piece of the full
split (which stops at the next separator occurrence), `""` when there is no
separator at all. -/
def splitTwoParts (sep s : Str) : Str × Str :=
  match findSub sep s with
  | none => (s, [])
  | some i =>
    match findSub sep (s.drop (i + sep.length)) with
    | none => (s.take i, s.drop (i + sep.length))
    | some j => (s.take i, (s.drop (i + sep.length)).take j)

/-- Models `raw_str.splitn(2, "\r\n\r\n")` in `http/parser.rs::parse`: the
first piece and the ENTIRE remainder after the first separator. -/
def splitnTwoParts (sep s : Str) : Str × Str :=
  match findSub sep s with
  | none => (s, [])
  | some i => (s.take i, s.drop (i + sep.length))

/-- Models Rust `str::lines`: split on `'\n'`, drop a final empty piece
produced by a trailing newline, and strip one trailing `'\r'` per line.
The empty string yields no lines. -/
def rustLines (s : Str) : List Str :=
  if s = [] then []
  else
    let parts := splitOnChar '\n' s
    let parts := if s.getLast? = some '\n' then parts.dropLast else parts
    parts.map (fun l => if l.getLast? = some '\r' then l.dropLast else l)

/-- Models Rust `str::trim` (ASCII whitespace range, see `isWS`). -/
def trimChars (s : Str) : Str :=
  ((s.dropWhile isWS).reverse.dropWhile isWS).reverse

/-- Association-list model of `HashMap::insert`: at most one binding per key,
insertion replaces any previous binding. -/
def insertKV (m : List (Str × Str)) (k v : Str) : List (Str × Str) :=
  m.filter (fun p => decide (p.1 ≠ k)) ++ [(k, v)]

/-- Lookup in the association-list map model. -/
def lookupKV (m : List (Str × Str)) (k : Str) : Option Str :=
  (m.find? (fun p => decide (p.1 = k))).map (·.2)

/-- Index of the first occurrence of a single character, models
`str::find(char)`. -/
def firstIdxOf (c : Char) : Str → Option Nat
  | [] => none
  | x :: xs => if x = c then some 0 else (firstIdxOf c xs).map (· + 1)

/-- Decimal rendering of a `Nat`, models `usize::to_string`. -/
def natToStr (n : Nat) : Str := (Nat.repr n).data

/-- HTTP request methods, from `http.rs`. -/
inductive Method
  | GET | POST | PUT | DELETE | HEAD | CONNECT | OPTIONS | TRACE | PATCH
deriving DecidableEq

/-- Models `Method::from(&str)` from `http.rs`, which uppercases the token
and panics on anything unrecognized; the panic is modelled as `none`. -/
def Method.fromStr (s : Str) : Option Method :=
  let u := s.map Char.toUpper
  if u = chars "GET" then some Method.GET
  else if u = chars "POST" then some Method.POST
  else if u = chars "PUT" then some Method.PUT
  else if u = chars "DELETE" then some Method.DELETE
  else if u = chars "HEAD" then some Method.HEAD
  else if u = chars "CONNECT" then some Method.CONNECT
  else if u = chars "OPTIONS" then some Method.OPTIONS
  else if u = chars "TRACE" then some Method.TRACE
  else if u = chars "PATCH" then some Method.PATCH
  else none

/-- HTTP versions, from `http.rs`. -/
inductive Version
  | HTTP1_0 | HTTP1_1 | HTTP2_0 | UNKNOWN
deriving DecidableEq

/-- Models `Version::from(&str)` from `http.rs`. -/
def Version.fromStr (s : Str) : Version :=
  if s = chars "HTTP/1.0" then Version.HTTP1_0
  else if s = chars "HTTP/1.1" then Version.HTTP1_1
  else if s = chars "HTTP/2.0" then Version.HTTP2_0
  else Version.UNKNOWN

/-- Display form of a `Version`, from the `Display` impl in `http.rs`. -/
def versionStr : Version → Str
  | Version.HTTP1_0 => chars "HTTP/1.0"
  | Version.HTTP1_1 => chars "HTTP/1.1"
  | Version.HTTP2_0 => chars "HTTP/2.0"
  | Version.UNKNOWN => chars "UNKNOWN"

/-- Parsed HTTP request, from `http.rs::Request`. -/
structure Request where
  method : Method
  path : Str
  version : Version
  headers : List (Str × Str)
  body : Str
  params : List (Str × Str)
  query : List (Str × Str)
deriving DecidableEq

/-- Result of running the parser: `ok`/`err` model the Rust `Result`, and
`panicked` models the `panic!("Invalid method")` reachable through
`Method::from` on an unrecognized method token. -/
inductive ParseOutcome
  | ok (r : Request)
  | err (e : String)
  | panicked
deriving DecidableEq

/-- Models the path/query split of `http.rs::Request::parse`: split the
request target at the first `'?'`; pairs are split at the first `'='`, a pair
without `'='` is kept with an empty value unless the pair itself is empty. -/
def parsePathQuery (pq : Str) : Str × List (Str × Str) :=
  match firstIdxOf '?' pq with
  | none => (pq, [])
  | some i =>
    (pq.take i,
     (splitOnChar '&' (pq.drop (i + 1))).foldl
       (fun m pair =>
         match firstIdxOf '=' pair with
         | some j => insertKV m (pair.take j) (pair.drop (j + 1))
         | none => if pair ≠ [] then insertKV m pair [] else m)
       [])

/-- Models the header-line loop of `http.rs::Request::parse`: split each line
at the first `':'`, trim name and value, silently drop lines without `':'`. -/
def parseHeaderLines (lines : List Str) : List (Str × Str) :=
  lines.foldl
    (fun m line =>
      match firstIdxOf ':' line with
      | some j => insertKV m (trimChars (line.take j)) (trimChars (line.drop (j + 1)))
      | none => m)
    []

/-- Models `http.rs::Request::parse`.  Note the headers/body split uses
`split("\r\n\r\n")` and takes the first two pieces, so the body stops at the
NEXT separator occurrence; see `splitTwoParts`. -/
def Request.parse (raw : Str) : ParseOutcome :=
  match rustLines (splitTwoParts crlf2 raw).1 with
  | [] => ParseOutcome.err "Missing request line"
  | requestLine :: headerLines =>
    match splitWS requestLine with
    | [] => ParseOutcome.err "Missing method"
    | [_] => ParseOutcome.err "Missing path"
    | [_, _] => ParseOutcome.err "Missing HTTP version"
    | methodTok :: pathTok :: versionTok :: _ =>
      match Method.fromStr methodTok with
      | none => ParseOutcome.panicked
      | some m =>
        ParseOutcome.ok
          { method := m
            path := (parsePathQuery pathTok).1
            version := Version.fromStr versionTok
            headers := parseHeaderLines headerLines
            body := (splitTwoParts crlf2 raw).2
            params := []
            query := (parsePathQuery pathTok).2 }

/-- The query parsing of `http/parser.rs::parse`: `splitn(2, '=')` on each
pair; a pair without `'='` gets an empty value and even an empty pair is
inserted (unlike `http.rs`). -/
def parserPathQuery (pq : Str) : Str × List (Str × Str) :=
  match firstIdxOf '?' pq with
  | none => (pq, [])
  | some i =>
    (pq.take i,
     (splitOnChar '&' (pq.drop (i + 1))).foldl
       (fun m pair =>
         match firstIdxOf '=' pair with
         | some j => insertKV m (pair.take j) (pair.drop (j + 1))
         | none => insertKV m pair [])
       [])

/-- Models the free function `http/parser.rs::parse`, whose headers/body
split uses `splitn(2, "\r\n\r\n")`: the body is the entire remainder after
the first separator. -/
def parser_parse (raw : Str) : ParseOutcome :=
  match rustLines (splitnTwoParts crlf2 raw).1 with
  | [] => ParseOutcome.err "Missing request line"
  | requestLine :: headerLines =>
    match splitWS requestLine with
    | [] => ParseOutcome.err "Missing method"
    | [_] => ParseOutcome.err "Missing path"
    | [_, _] => ParseOutcome.err "Missing HTTP version"
    | methodTok :: pathTok :: versionTok :: _ =>
      match Method.fromStr methodTok with
      | none => ParseOutcome.panicked
      | some m =>
        ParseOutcome.ok
          { method := m
            path := (parserPathQuery pathTok).1
            version := Version.fromStr versionTok
            headers := parseHeaderLines headerLines
            body := (splitnTwoParts crlf2 raw).2
            params := []
            query := (parserPathQuery pathTok).2 }

example : Request.parse (chars "GET /x HTTP/1.1\r\n\r\nAAA\r\n\r\nBBB") =
    ParseOutcome.ok
      { method := Method.GET, path := chars "/x", version := Version.HTTP1_1,
        headers := [], body := chars "AAA", params := [], query := [] } := by decide

example : Request.parse (chars "FOO / HTTP/1.1") = ParseOutcome.panicked := by decide

/-- HTTP status codes, from `http.rs::StatusCode`. -/
inductive StatusCode
  | OK | Created | Accepted | NoContent | BadRequest | Unauthorized | Forbidden
  | NotFound | MethodNotAllowed | InternalServerError | NotImplemented
  | BadGateway | ServiceUnavailable
deriving DecidableEq

/-- Numeric code of a status, from the discriminants in `http.rs`. -/
def StatusCode.code : StatusCode → Nat
  | StatusCode.OK => 200
  | StatusCode.Created => 201
  | StatusCode.Accepted => 202
  | StatusCode.NoContent => 204
  | StatusCode.BadRequest => 400
  | StatusCode.Unauthorized => 401
  | StatusCode.Forbidden => 403
  | StatusCode.NotFound => 404
  | StatusCode.MethodNotAllowed => 405
  | StatusCode.InternalServerError => 500
  | StatusCode.NotImplemented => 501
  | StatusCode.BadGateway => 502
  | StatusCode.ServiceUnavailable => 503

/-- Models `StatusCode::reason_phrase` from `http.rs`. -/
def StatusCode.reason_phrase : StatusCode → Str
  | StatusCode.OK => chars "OK"
  | StatusCode.Created => chars "Created"
  | StatusCode.Accepted => chars "Accepted"
  | StatusCode.NoContent => chars "No Content"
  | StatusCode.BadRequest => chars "Bad Request"
  | StatusCode.Unauthorized => chars "Unauthorized"
  | StatusCode.Forbidden => chars "Forbidden"
  | StatusCode.NotFound => chars "Not Found"
  | StatusCode.MethodNotAllowed => chars "Method Not Allowed"
  | StatusCode.InternalServerError => chars "Internal Server Error"
  | StatusCode.NotImplemented => chars "Not Implemented"
  | StatusCode.BadGateway => chars "Bad Gateway"
  | StatusCode.ServiceUnavailable => chars "Service Unavailable"

/-- HTTP response, from `http.rs::Response`. -/
structure Response where
  version : Version
  status_code : StatusCode
  headers : List (Str × Str)
  body : Str
deriving DecidableEq

/-- Models `Response::new` from `http.rs`.  The Rust code reads the clock for
the `Date` header (`chrono::Utc::now`); the date string is a parameter here. -/
def Response.new (status_code : StatusCode) (date : Str) : Response :=
  { version := Version.HTTP1_1
    status_code := status_code
    headers := insertKV (insertKV [] (chars "Server") (chars "RustHTTP/0.1")) (chars "Date") date
    body := [] }

/-- Models `Response::set_body`: store the body and recompute the
`Content-Length` header from its length. -/
def Response.set_body (r : Response) (body : Str) : Response :=
  { r with
    body := body
    headers := insertKV r.headers (chars "Content-Length") (natToStr body.length) }

/-- Models `Response::set_content_type`. -/
def Response.set_content_type (r : Response) (ct : Str) : Response :=
  { r with headers := insertKV r.headers (chars "Content-Type") ct }

/-- Models `Response::to_bytes`: status line, one `name: value\r\n` line per
header (in the order the map model stores them), a blank line, the body. -/
def Response.to_bytes (r : Response) : Str :=
  (versionStr r.version ++ chars " " ++ natToStr r.status_code.code
    ++ chars " " ++ r.status_code.reason_phrase ++ crlf)
  ++ r.headers.foldl (fun acc kv => acc ++ (kv.1 ++ chars ": " ++ kv.2 ++ crlf)) []
  ++ crlf
  ++ r.body

/-- Path segments of a compiled route pattern, from `router.rs::PathSegment`. -/
inductive PathSegment
  | Exact (s : Str)
  | Param (s : Str)
  | Wildcard
deriving DecidableEq

/-- Compiled route pattern, from `router.rs::RoutePattern`. -/
structure RoutePattern where
  segments : List PathSegment
deriving DecidableEq

/-- Models `RoutePattern::new`: split the pattern on `'/'`, drop empty
segments, classify `*` as wildcard, `:name` as parameter, anything else as
an exact literal. -/
def RoutePattern.new (pattern : Str) : RoutePattern :=
  { segments :=
      (segsOf pattern).map (fun seg =>
        if seg = chars "*" then PathSegment.Wildcard
        else
          match seg with
          | ':' :: rest => PathSegment.Param rest
          | _ => PathSegment.Exact seg) }

/-- Is a segment the wildcard segment? -/
def isWildcardSeg : PathSegment → Bool
  | PathSegment.Wildcard => true
  | _ => false

/-- The segment walk of `RoutePattern::matches`: exact segments must be
equal, parameter segments capture, the wildcard returns the captures so far
immediately; afterwards all path segments must be consumed. -/
def matchSegs : List PathSegment → List Str → List (Str × Str) → Option (List (Str × Str))
  | [], pathRest, params => if pathRest = [] then some params else none
  | PathSegment.Exact e :: segs, pathRest, params =>
    match pathRest with
    | [] => none
    | p :: ps => if p = e then matchSegs segs ps params else none
  | PathSegment.Param n :: segs, pathRest, params =>
    match pathRest with
    | [] => none
    | p :: ps => matchSegs segs ps (insertKV params n p)
  | PathSegment.Wildcard :: _, _, params => some params

/-- Models `RoutePattern::matches`: the quick segment-count check (which is
skipped when the pattern contains a wildcard), then the segment walk. -/
def RoutePattern.matches (pat : RoutePattern) (path : Str) : Option (List (Str × Str)) :=
  if (segsOf path).length ≠ pat.segments.length ∧ pat.segments.any isWildcardSeg = false
  then none
  else matchSegs pat.segments (segsOf path) []

/-- Does the compiled pattern contain a wildcard segment? -/
def RoutePattern.hasWildcard (pat : RoutePattern) : Bool :=
  pat.segments.any isWildcardSeg

/-- A registered route, from `router.rs::Route`; the boxed asynchronous
handler becomes a pure function. -/
structure Route where
  pattern : RoutePattern
  method : Option Method
  handler : Request → Except String Response

/-- The router, from `router.rs::Router`. -/
structure Router where
  routes : List Route
  not_found_handler : Request → Except String Response

/-- The method skip check of `Router::handle`: `true` exactly when a method
filter is set and disagrees with the request method (the `continue`). -/
def methodMismatch : Option Method → Method → Bool
  | some x, m => decide (m ≠ x)
  | none, _ => false

/-- The route loop of `Router::handle`: try routes in registration order,
skipping on method mismatch without a pattern match; on a pattern match call
the handler on a copy of the request whose `params` are replaced by the
captures; fall through to the not-found handler. -/
def handleRoutes : List Route → (Request → Except String Response) → Request → Except String Response
  | [], nf, req => nf req
  | route :: rest, nf, req =>
    if methodMismatch route.method req.method then handleRoutes rest nf req
    else
      match route.pattern.matches req.path with
      | some params => route.handler { req with params := params }
      | none => handleRoutes rest nf req

/-- Models `Router::handle` from `router.rs`. -/
def Router.handle (router : Router) (req : Request) : Except String Response :=
  handleRoutes router.routes router.not_found_handler req

/-- Specification-side search, phrased as the claims phrase it: the first
route in registration order whose method filter is absent or equal to the
request method AND whose pattern matches the path, with its captures. -/
def firstMatchingRoute : List Route → Method → Str → Option (Route × List (Str × Str))
  | [], _, _ => none
  | route :: rest, m, path =>
    if route.method = none ∨ route.method = some m then
      match route.pattern.matches path with
      | some params => some (route, params)
      | none => firstMatchingRoute rest m path
    else firstMatchingRoute rest m path

example : (RoutePattern.new (chars "/static/*")).matches (chars "/static/a/b/c.png") = some [] := by decide
example : (RoutePattern.new (chars "/static/*")).matches (chars "/static") = some [] := by decide
example : (RoutePattern.new (chars "/users/:id")).matches (chars "/users/42")
    = some [(chars "id", chars "42")] := by decide
example : (RoutePattern.new (chars "/users/:id")).matches (chars "/users") = none := by decide

/-- Models `service.rs::ServiceBuilder<S>`, which stores the service built so
far. -/
structure ServiceBuilder (S : Type) where
  service : S

/-- Models `ServiceBuilder::new`. -/
def ServiceBuilder.new {S : Type} (service : S) : ServiceBuilder S :=
  { service := service }

/-- Models `ServiceBuilder::layer`: the new layer wraps the service built so
far (`layer.layer(self.service)`), so the layer applied LAST ends up
outermost.  A Rust `Layer` is its single method, a service transformer. -/
def ServiceBuilder.layer {S T : Type} (b : ServiceBuilder S) (l : S → T) : ServiceBuilder T :=
  { service := l b.service }

/-- Models `ServiceBuilder::build`. -/
def ServiceBuilder.build {S : Type} (b : ServiceBuilder S) : S :=
  b.service

/-- A service whose side effects are observable: the call threads an ordering
log of strings, modelling the `println!` side channel of `LogMiddleware` and
the ordering-log test of the specification. -/
def TraceService : Type := Request → List String → List String × Except String Response

/-- A layer in the shape of `middleware.rs::LogMiddleware::call`: record a
before entry, delegate to the inner service, record an after entry once the
inner future resolves. -/
def traceLayer (tag : String) (inner : TraceService) : TraceService :=
  fun req log =>
    match inner req (log ++ [tag ++ "-before"]) with
    | (log2, result) => (log2 ++ [tag ++ "-after"], result)

/-- A base service that records one entry and succeeds with a fixed
response. -/
def baseService (tag : String) (resp : Response) : TraceService :=
  fun _ log => (log ++ [tag], Except.ok resp)

/-- Outcome of handling one connection in `server.rs::Server::handle_client`:
either the connection is abandoned with an error and nothing is written to
the socket (`ioError`), or exactly one response is written (`wrote`), or the
thread panics inside `Request::parse` (`panicked`). -/
inductive HandleOutcome
  | ioError (e : String)
  | wrote (r : Response)
  | panicked
deriving DecidableEq

/-- The read loop of `handle_client` (server.rs lines 109-132) over the
successive results of `stream.read`: an empty chunk is a peer close (break),
a chunk list running out models the read deadline expiring (an `Err` from
`read`), otherwise append and break once the accumulated data contains
`\r\n\r\n`, failing with "Request too large" at 1 MiB. -/
def readLoop : List Str → Str → Except String Str
  | [], _ => Except.error "Error reading from stream: timed out"
  | chunk :: rest, acc =>
    if chunk = [] then Except.ok acc
    else
      if containsSeq crlf2 (acc ++ chunk) then Except.ok (acc ++ chunk)
      else if 1048576 ≤ (acc ++ chunk).length then Except.error "Request too large"
      else readLoop rest (acc ++ chunk)

/-- The canned 400 response of `handle_client` on a parse failure:
`Response::new(BadRequest)` then `set_content_type("text/plain")` then
`set_body(b"Bad Request")`. -/
def bad_request_response (date : Str) : Response :=
  ((Response.new StatusCode.BadRequest date).set_content_type (chars "text/plain")).set_body
    (chars "Bad Request")

/-- Models `Server::handle_client` (server.rs lines 98-196).  The
middleware/route/404 steps after a successful parse (lines 167-189), which
always write exactly one response, are abstracted by `dispatch`; the `Date`
header read from the clock is the `date` parameter; socket writes are
assumed to succeed. -/
def handle_client (dispatch : Request → Response) (date : Str) (chunks : List Str) :
    HandleOutcome :=
  match readLoop chunks [] with
  | Except.error e => HandleOutcome.ioError e
  | Except.ok data =>
    match Request.parse data with
    | ParseOutcome.err _ => HandleOutcome.wrote (bad_request_response date)
    | ParseOutcome.panicked => HandleOutcome.panicked
    | ParseOutcome.ok req => HandleOutcome.wrote (dispatch req)

/-- Concrete sample response used by witnesses. -/
def respA : Response := Response.new StatusCode.OK (chars "D")

/-- Concrete dispatch function used by witnesses (never reached on the
inputs they use). -/
def dispatch0 : Request → Response := fun _ => respA

example : handle_client dispatch0 (chars "D") [chars "A", []]
    = HandleOutcome.wrote (bad_request_response (chars "D")) := by decide

/-- The body of a successfully parsed request under `http.rs::Request::parse`. -/
def parsedBody (raw : Str) : Option Str :=
  match Request.parse raw with
  | ParseOutcome.ok r => some r.body
  | _ => none

/-- The body of a successfully parsed request under `http/parser.rs::parse`. -/
def parserParsedBody (raw : Str) : Option Str :=
  match parser_parse raw with
  | ParseOutcome.ok r => some r.body
  | _ => none

/-- A raw request whose body region contains a second `\r\n\r\n`. -/
def rawWithTwoSeps : Str := chars "GET /x HTTP/1.1\r\n\r\nAAA\r\n\r\nBBB"

/-- Claim C3, counterexample: the claim asserts
`matches("/static/*", "/static")` returns none, but `RoutePattern::matches`
returns `Some` of the empty capture map — the wildcard branch returns
immediately and never requires a path segment at its own position. -/
theorem c3_counterexample :
    (RoutePattern.new (chars "/static/*")).matches (chars "/static") = some []
    ∧ (RoutePattern.new (chars "/static/*")).matches (chars "/static") ≠ none := by
  decide

/-- Claim C3, amended: for the pattern compiled from "/static/*",
`matches("/static/a/b/c.png")` succeeds with an empty capture map, and
`matches("/static")` ALSO succeeds with an empty capture map — the wildcard
matches zero or more remaining segments. -/
theorem c3_amended :
    (RoutePattern.new (chars "/static/*")).matches (chars "/static/a/b/c.png") = some []
    ∧ (RoutePattern.new (chars "/static/*")).matches (chars "/static") = some [] := by
  decide

/-- Claim C4, counterexample: the peer sends one byte and closes before any
`\r\n\r\n` arrived; the claim says no response bytes are written, but
`handle_client` parses the truncated buffer, the parse fails, and a 400 Bad
Request response is written to the socket. -/
theorem c4_counterexample :
    handle_client dispatch0 (chars "D") [chars "A", []]
      = HandleOutcome.wrote (bad_request_response (chars "D")) := by
  decide

/-- Claim C4, amended: a zero-length read before the header terminator makes
the read loop stop and hand the truncated buffer to `Request::parse`; when
that parse fails, `handle_client` writes a 400 Bad Request response — it is
not a silent abort (only read-loop errors abandon the connection without a
response). -/
theorem c4_amended (dispatch : Request → Response) (date : Str) (chunks : List Str)
    (data : Str) (e : String)
    (h1 : readLoop chunks [] = Except.ok data)
    (h2 : Request.parse data = ParseOutcome.err e) :
    handle_client dispatch date chunks = HandleOutcome.wrote (bad_request_response date) := by
  simp only [handle_client, h1, h2]

/-- Witness for C4: a concrete truncated request followed by a peer close. -/
theorem c4_witness :
    handle_client dispatch0 (chars "E") [chars "GE", []]
      = HandleOutcome.wrote (bad_request_response (chars "E")) :=
  c4_amended dispatch0 (chars "E") [chars "GE", []] (chars "GE") "Missing path"
    (by rfl) (by decide)

/-- Claim C5, counterexample: a request line with three whitespace-separated
tokens whose method token is unrecognized does NOT yield a `Result` value:
`Request::parse` reaches `Method::from`, which executes
`panic!("Invalid method")`. -/
theorem c5_counterexample :
    Request.parse (chars "FOO / HTTP/1.1") = ParseOutcome.panicked := by
  decide

/-- Claim C6, counterexample: `http.rs::Request::parse` splits with
`split("\r\n\r\n")` and takes only the second piece as the body, so on an
input whose body region contains a second separator the returned body is NOT
all bytes after the first separator — the second separator and everything
after it are dropped. -/
theorem c6_counterexample :
    parsedBody rawWithTwoSeps ≠ some (chars "AAA\r\n\r\nBBB")
    ∧ parsedBody rawWithTwoSeps = some (chars "AAA") := by
  decide

/-- Claim C6, amended: `http.rs::Request::parse` returns as body only the
bytes strictly between the first and second occurrences of `\r\n\r\n` (all
remaining bytes when no second occurrence exists), while the free function
`http/parser.rs::parse` splits with `splitn(2, ..)` and does return all
bytes after the first separator, later separators included. -/
theorem c6_amended :
    parsedBody rawWithTwoSeps = some (chars "AAA")
    ∧ parserParsedBody rawWithTwoSeps = some (chars "AAA\r\n\r\nBBB")
    ∧ parsedBody (chars "GET /x HTTP/1.1\r\n\r\nAAA") = some (chars "AAA") := by
  decide

/-- The method skip test of the loop agrees with the absent-or-equal phrasing
of the claims. -/
theorem method_ok_iff (f : Option Method) (m : Method) :
    methodMismatch f m = false ↔ (f = none ∨ f = some m) := by
  cases f with
  | none => simp [methodMismatch]
  | some x =>
    simp only [methodMismatch, decide_eq_false_iff_not, not_not]
    constructor
    · intro h
      exact Or.inr (by rw [h])
    · intro h
      rcases h with h | h
      · exact absurd h (by simp)
      · injection h with h
        exact h.symm

/-- Shared characterization of the route loop: it returns the handler of the
first matching route applied to the request with replaced parameters, or the
fallback on the original request. -/
theorem handleRoutes_spec (routes : List Route) (nf : Request → Except String Response)
    (req : Request) :
    handleRoutes routes nf req =
      match firstMatchingRoute routes req.method req.path with
      | some rp => rp.1.handler { req with params := rp.2 }
      | none => nf req := by
  induction routes with
  | nil => rfl
  | cons route rest ih =>
    by_cases hm : route.method = none ∨ route.method = some req.method
    · have hmm : methodMismatch route.method req.method = false := (method_ok_iff _ _).mpr hm
      simp only [handleRoutes, hmm, Bool.false_eq_true, if_false, firstMatchingRoute, if_pos hm]
      cases h : route.pattern.matches req.path with
      | some params => simp
      | none => simp [ih]
    · have hmm : methodMismatch route.method req.method = true := by
        cases hmb : methodMismatch route.method req.method
        · exact absurd ((method_ok_iff _ _).mp hmb) hm
        · rfl
      simp only [handleRoutes, hmm, if_true, firstMatchingRoute, if_neg hm, ih]

/-- Claim C1: `Router::handle` invokes the handler of the first route in
registration order whose method filter is absent or equal to the request
method and whose pattern matches the path (a method-filter disagreement
skips the route before any pattern work), returns that handler's result
without trying later routes, and falls back to the not-found handler
otherwise. -/
theorem router_handle_first_match (router : Router) (req : Request) :
    Router.handle router req =
      match firstMatchingRoute router.routes req.method req.path with
      | some rp => rp.1.handler { req with params := rp.2 }
      | none => router.not_found_handler req :=
  handleRoutes_spec router.routes router.not_found_handler req

/-- Claim C8: on a match the invoked handler receives a request whose
parameter map is wholly replaced by the captures while every other field is
unchanged; with no match the not-found handler receives the original request
unmodified. -/
theorem router_handle_frame (router : Router) (req : Request) :
    (∀ (route : Route) (params : List (Str × Str)),
      firstMatchingRoute router.routes req.method req.path = some (route, params) →
      Router.handle router req =
        route.handler
          { method := req.method, path := req.path, version := req.version,
            headers := req.headers, body := req.body, params := params,
            query := req.query })
    ∧ (firstMatchingRoute router.routes req.method req.path = none →
      Router.handle router req = router.not_found_handler req) := by
  constructor
  · intro route params h
    have hs := handleRoutes_spec router.routes router.not_found_handler req
    rw [h] at hs
    exact hs
  · intro h
    have hs := handleRoutes_spec router.routes router.not_found_handler req
    rw [h] at hs
    exact hs

/-- Concrete handler for the router witnesses. -/
def handlerA : Request → Except String Response := fun _ => Except.ok respA

/-- Concrete fallback handler for the router witnesses. -/
def nfHandlerA : Request → Except String Response := fun _ => Except.error "nf"

/-- Concrete route for the router witnesses. -/
def routeA : Route :=
  { pattern := RoutePattern.new (chars "/users/:id"), method := some Method.GET,
    handler := handlerA }

/-- Concrete router for the router witnesses. -/
def routerA : Router := { routes := [routeA], not_found_handler := nfHandlerA }

/-- Concrete request for the router witnesses, carrying stale parameters
that the router must replace. -/
def reqA : Request :=
  { method := Method.GET, path := chars "/users/7", version := Version.HTTP1_1,
    headers := [(chars "Host", chars "x")], body := chars "b",
    params := [(chars "old", chars "x")], query := [(chars "q", chars "1")] }

/-- Witness for C8: the matched handler gets the captured id and the other
fields of the concrete request. -/
theorem c8_witness :
    Router.handle routerA reqA =
      routeA.handler
        { method := reqA.method, path := reqA.path, version := reqA.version,
          headers := reqA.headers, body := reqA.body,
          params := [(chars "id", chars "7")], query := reqA.query } :=
  (router_handle_frame routerA reqA).1 routeA [(chars "id", chars "7")] (by rfl)

/-- Claim C9: for a pattern compiled without any wildcard segment, `matches`
returns none whenever the nonempty `/`-segment counts of pattern and path
differ. -/
theorem matches_none_of_count_mismatch (pattern path : Str)
    (hw : (RoutePattern.new pattern).hasWildcard = false)
    (hne : (segsOf pattern).length ≠ (segsOf path).length) :
    (RoutePattern.new pattern).matches path = none := by
  have hlen : (RoutePattern.new pattern).segments.length = (segsOf pattern).length := by
    simp [RoutePattern.new]
  have hcond : (segsOf path).length ≠ (RoutePattern.new pattern).segments.length
      ∧ (RoutePattern.new pattern).segments.any isWildcardSeg = false :=
    ⟨fun h => hne ((h.trans hlen).symm), hw⟩
  simp only [RoutePattern.matches, if_pos hcond]

/-- Witness for C9: a two-segment wildcard-free pattern against a
one-segment path. -/
theorem c9_witness : (RoutePattern.new (chars "/a/:b")).matches (chars "/a") = none :=
  matches_none_of_count_mismatch (chars "/a/:b") (chars "/a") (by decide) (by decide)

/-- Claim C2, counterexample: building with `layer(L1)` then `layer(L2)` puts
L2 outermost, so a call traces L2-before, L1-before, base, L1-after,
L2-after — not the order the claim states (L1 outermost). -/
theorem c2_counterexample :
    ((((ServiceBuilder.new (baseService "base" respA)).layer (traceLayer "L1")).layer
        (traceLayer "L2")).build reqA []).1
      = ["L2-before", "L1-before", "base", "L1-after", "L2-after"]
    ∧ ((((ServiceBuilder.new (baseService "base" respA)).layer (traceLayer "L1")).layer
        (traceLayer "L2")).build reqA []).1
      ≠ ["L1-before", "L2-before", "base", "L2-after", "L1-after"] := by
  decide

/-- Claim C2, amended: `ServiceBuilder::new(S).layer(L1).layer(L2).build()`
composes with L2 outermost and L1 wrapping S (each `layer` call wraps the
service built so far), so a single call executes L2-before, L1-before, S,
L1-after, L2-after. -/
theorem c2_amended :
    (∀ (S T U : Type) (base : S) (l1 : S → T) (l2 : T → U),
      (((ServiceBuilder.new base).layer l1).layer l2).build = l2 (l1 base))
    ∧ (∀ (t0 t1 t2 : String) (resp : Response) (req : Request) (log : List String),
      (((ServiceBuilder.new (baseService t0 resp)).layer (traceLayer t1)).layer
          (traceLayer t2)).build req log
        = (log ++ [t2 ++ "-before", t1 ++ "-before", t0, t1 ++ "-after", t2 ++ "-after"],
           Except.ok resp)) := by
  constructor
  · intro S T U base l1 l2
    rfl
  · intro t0 t1 t2 resp req log
    simp [ServiceBuilder.new, ServiceBuilder.layer, ServiceBuilder.build, traceLayer,
      baseService]

/-- Reachable-response modifications of claim C7: the operations a handler
may apply after `Response::new` through the accessors. -/
inductive ResponseOp
  | set_body (b : Str)
  | set_content_type (c : Str)

/-- Apply one accessor call. -/
def applyOp (r : Response) : ResponseOp → Response
  | ResponseOp.set_body b => r.set_body b
  | ResponseOp.set_content_type c => r.set_content_type c

/-- Apply a sequence of accessor calls, oldest first. -/
def applyOps (r : Response) (ops : List ResponseOp) : Response :=
  ops.foldl applyOp r

/-- Unfolding membership after a map insertion: the pair was already present
with a different key, or it is the inserted binding. -/
theorem mem_insertKV_elim {m : List (Str × Str)} {k v : Str} {p : Str × Str}
    (h : p ∈ insertKV m k v) : (p ∈ m ∧ p.1 ≠ k) ∨ p = (k, v) := by
  unfold insertKV at h
  rcases List.mem_append.mp h with h | h
  · rcases List.mem_filter.mp h with ⟨hm, hp⟩
    exact Or.inl ⟨hm, of_decide_eq_true hp⟩
  · exact Or.inr (List.mem_singleton.mp h)

/-- The Content-Length invariant on a single response value. -/
def clInv (r : Response) : Prop :=
  ∀ v, (chars "Content-Length", v) ∈ r.headers → v = natToStr r.body.length

/-- `Response::new` emits no Content-Length header at all. -/
theorem clInv_new (sc : StatusCode) (date : Str) : clInv (Response.new sc date) := by
  have hh : (Response.new sc date).headers
      = [(chars "Server", chars "RustHTTP/0.1"), (chars "Date", date)] := rfl
  intro v hv
  rw [hh] at hv
  simp only [List.mem_cons, List.not_mem_nil, or_false] at hv
  rcases hv with hv | hv
  · have hk : chars "Content-Length" = chars "Server" := congrArg Prod.fst hv
    exact absurd hk (by decide)
  · have hk : chars "Content-Length" = chars "Date" := congrArg Prod.fst hv
    exact absurd hk (by decide)

/-- Each accessor call re-establishes the invariant: `set_body` rewrites
Content-Length from the new body, `set_content_type` touches neither the
body nor the Content-Length binding. -/
theorem clInv_applyOp (r : Response) (op : ResponseOp) (h : clInv r) :
    clInv (applyOp r op) := by
  cases op with
  | set_body b =>
    intro v hv
    simp only [applyOp, Response.set_body] at hv
    rcases mem_insertKV_elim hv with ⟨_, hne⟩ | he
    · exact absurd rfl hne
    · have hsnd := congrArg Prod.snd he
      simpa using hsnd
  | set_content_type c =>
    intro v hv
    simp only [applyOp, Response.set_content_type] at hv
    rcases mem_insertKV_elim hv with ⟨hm, _⟩ | he
    · exact h v hm
    · have hk : chars "Content-Length" = chars "Content-Type" := congrArg Prod.fst he
      exact absurd hk (by decide)

/-- The invariant holds after any accessor sequence. -/
theorem clInv_applyOps (r : Response) (ops : List ResponseOp) (h : clInv r) :
    clInv (applyOps r ops) := by
  induction ops generalizing r with
  | nil => exact h
  | cons op rest ih => exact ih (applyOp r op) (clInv_applyOp r op h)

/-- `to_bytes` serializes exactly the stored body as the final bytes. -/
theorem body_suffix_to_bytes (r : Response) : r.body <:+ r.to_bytes := by
  refine ⟨(versionStr r.version ++ chars " " ++ natToStr r.status_code.code
      ++ chars " " ++ r.status_code.reason_phrase ++ crlf)
    ++ r.headers.foldl (fun acc kv => acc ++ (kv.1 ++ chars ": " ++ kv.2 ++ crlf)) []
    ++ crlf, ?_⟩
  simp [Response.to_bytes, List.append_assoc]

/-- Claim C7: for every response built by `Response::new` and modified only
through `set_body` / `set_content_type`, any Content-Length binding equals
the decimal length of the body, and `to_bytes` serializes that body
verbatim as its final bytes (so the emitted Content-Length line equals the
number of serialized body bytes). -/
theorem response_content_length_invariant (sc : StatusCode) (date : Str)
    (ops : List ResponseOp) (v : Str)
    (hv : (chars "Content-Length", v) ∈ (applyOps (Response.new sc date) ops).headers) :
    v = natToStr (applyOps (Response.new sc date) ops).body.length
    ∧ (applyOps (Response.new sc date) ops).body
        <:+ (applyOps (Response.new sc date) ops).to_bytes :=
  ⟨clInv_applyOps (Response.new sc date) ops (clInv_new sc date) v hv,
   body_suffix_to_bytes _⟩

/-- Witness for C7: a concrete response with a two-byte body. -/
theorem c7_witness :
    chars "2" = natToStr (applyOps (Response.new StatusCode.OK (chars "D"))
        [ResponseOp.set_content_type (chars "text/plain"),
         ResponseOp.set_body (chars "hi")]).body.length
    ∧ (applyOps (Response.new StatusCode.OK (chars "D"))
        [ResponseOp.set_content_type (chars "text/plain"),
         ResponseOp.set_body (chars "hi")]).body
      <:+ (applyOps (Response.new StatusCode.OK (chars "D"))
        [ResponseOp.set_content_type (chars "text/plain"),
         ResponseOp.set_body (chars "hi")]).to_bytes :=
  response_content_length_invariant StatusCode.OK (chars "D")
    [ResponseOp.set_content_type (chars "text/plain"), ResponseOp.set_body (chars "hi")]
    (chars "2") (by decide)

/-- The whitespace tokens of the first line of the part before the first
`\r\n\r\n`, exactly the request-line tokens `Request::parse` inspects. -/
def requestLineTokens (raw : Str) : List Str :=
  match rustLines (splitTwoParts crlf2 raw).1 with
  | [] => []
  | l :: _ => splitWS l

/-- Claim C5, amended: `Request::parse` terminates on every input and yields
an Ok or Err value, EXCEPT that when the request line has at least three
whitespace-separated tokens and the method token is unrecognized it panics
inside `Method::from` — the panic cases are exactly those. -/
theorem parse_panic_characterization (raw : Str) :
    Request.parse raw = ParseOutcome.panicked ↔
      (3 ≤ (requestLineTokens raw).length
        ∧ Method.fromStr ((requestLineTokens raw).headD []) = none) := by
  unfold Request.parse requestLineTokens
  cases h1 : rustLines (splitTwoParts crlf2 raw).1 with
  | nil => simp
  | cons l ls =>
    cases h2 : splitWS l with
    | nil => simp [h2]
    | cons t1 ts1 =>
      cases ts1 with
      | nil => simp [h2]
      | cons t2 ts2 =>
        cases ts2 with
        | nil => simp [h2]
        | cons t3 ts3 =>
          cases h3 : Method.fromStr t1 with
          | none => simp [h2, h3, Nat.le_add_left]
          | some m => simp [h2, h3]

/-- Witness for C5: a concrete three-token request line with an unrecognized
method token, on which the parse panics. -/
theorem c5_witness :
    Request.parse (chars "PATCHX / HTTP/1.1") = ParseOutcome.panicked :=
  (parse_panic_characterization (chars "PATCHX / HTTP/1.1")).mpr (by decide)

/-- Extending the scanned list cannot destroy a match at the front. -/
theorem beginsWith_extend (sep : Str) : ∀ (s t : Str),
    beginsWith sep s = true → beginsWith sep (s ++ t) = true := by
  induction sep with
  | nil => intro s t _; rfl
  | cons c cs ih =>
    intro s t h
    cases s with
    | nil => exact absurd h (by simp [beginsWith])
    | cons a as =>
      simp only [List.cons_append, beginsWith, Bool.and_eq_true] at h ⊢
      exact ⟨h.1, ih as t h.2⟩

/-- If the separator occurs nowhere in `s ++ t`, it occurs nowhere in `s`. -/
theorem findSub_none_of_append (sep : Str) : ∀ (s t : Str),
    findSub sep (s ++ t) = none → findSub sep s = none := by
  intro s
  induction s with
  | nil =>
    intro t h
    cases hsep : beginsWith sep [] with
    | false => simp [findSub, hsep]
    | true =>
      exfalso
      cases sep with
      | nil =>
        cases t with
        | nil => simp [findSub, beginsWith] at h
        | cons x xs => simp [findSub, beginsWith] at h
      | cons c cs => simp [beginsWith] at hsep
  | cons a as ih =>
    intro t h
    rw [List.cons_append] at h
    by_cases hb : beginsWith sep (a :: (as ++ t)) = true
    · simp [findSub, hb] at h
    · have hb' : beginsWith sep (a :: (as ++ t)) = false := by
        cases hx : beginsWith sep (a :: (as ++ t))
        · rfl
        · exact absurd hx hb
      have h' : findSub sep (as ++ t) = none := by
        cases hopt : findSub sep (as ++ t) with
        | none => rfl
        | some i => simp [findSub, hb', hopt] at h
      have htail := ih t h'
      have hb2 : beginsWith sep (a :: as) = false := by
        cases hx : beginsWith sep (a :: as) with
        | false => rfl
        | true =>
          have := beginsWith_extend sep (a :: as) t hx
          rw [List.cons_append] at this
          exact absurd this hb
      simp [findSub, hb2, htail]

/-- The read loop of `handle_client` fails with "Request too large" whenever
the peer keeps sending data (no empty chunk), the terminator never appears,
and the data reaches the 1 MiB cap. -/
theorem readLoop_cap : ∀ (chunks : List Str) (acc : Str),
    (∀ c ∈ chunks, c ≠ []) →
    containsSeq crlf2 (acc ++ chunks.join) = false →
    1048576 ≤ acc.length + chunks.join.length →
    acc.length < 1048576 →
    readLoop chunks acc = Except.error "Request too large" := by
  intro chunks
  induction chunks with
  | nil =>
    intro acc _ _ hlen hacc
    exfalso
    simp [List.join] at hlen
    omega
  | cons c rest ih =>
    intro acc hne hterm hlen hacc
    have hc : c ≠ [] := hne c (List.mem_cons_self c rest)
    have hterm2 : containsSeq crlf2 ((acc ++ c) ++ rest.join) = false := by
      rw [List.append_assoc]
      simpa [List.join] using hterm
    have hterm1 : containsSeq crlf2 (acc ++ c) = false := by
      unfold containsSeq at hterm2 ⊢
      rw [findSub_none_of_append crlf2 (acc ++ c) rest.join (by
        cases hopt : findSub crlf2 ((acc ++ c) ++ rest.join) with
        | none => rfl
        | some i => rw [hopt] at hterm2; simp at hterm2)]
      rfl
    have hjoin : (c :: rest).join.length = c.length + rest.join.length := by
      simp [List.join]
    have hlac : (acc ++ c).length = acc.length + c.length := List.length_append acc c
    by_cases hcap : 1048576 ≤ (acc ++ c).length
    · simp only [readLoop]
      rw [if_neg hc, hterm1, if_neg Bool.false_ne_true, if_pos hcap]
    · have hrec := ih (acc ++ c)
        (fun x hx => hne x (List.mem_cons_of_mem c hx))
        hterm2
        (by rw [hjoin] at hlen; rw [hlac]; omega)
        (by rw [hlac] at hcap ⊢; omega)
      simp only [readLoop]
      rw [if_neg hc, hterm1, if_neg Bool.false_ne_true, if_neg hcap, hrec]

/-- Claim C10: when the accumulated request bytes reach the 1 MiB cap
without the `\r\n\r\n` terminator ever appearing (and the peer never
closes), `handle_client` returns the "Request too large" connection error,
an outcome in which no response bytes are written to the socket. -/
theorem handle_client_too_large (dispatch : Request → Response) (date : Str)
    (chunks : List Str)
    (hne : ∀ c ∈ chunks, c ≠ [])
    (hterm : containsSeq crlf2 chunks.join = false)
    (hlen : 1048576 ≤ chunks.join.length) :
    handle_client dispatch date chunks = HandleOutcome.ioError "Request too large" := by
  have h := readLoop_cap chunks [] hne (by simpa using hterm) (by simpa using hlen)
    (by norm_num)
  simp [handle_client, h]

/-- A 1 MiB chunk of the letter A. -/
def bigChunk : Str := List.replicate 1048576 'A'

/-- The terminator cannot occur in a list all of whose characters are A. -/
theorem findSub_crlf2_all_A : ∀ (s : Str), (∀ a ∈ s, a = 'A') →
    findSub crlf2 s = none := by
  intro s
  induction s with
  | nil => intro _; rfl
  | cons a as ih =>
    intro h
    have ha : a = 'A' := h a (List.mem_cons_self a as)
    subst ha
    have hb : beginsWith crlf2 ('A' :: as) = false := rfl
    simp [findSub, hb, ih (fun x hx => h x (List.mem_cons_of_mem 'A' hx))]

/-- Witness for C10: a single chunk of exactly 1 MiB of the letter A. -/
theorem c10_witness :
    handle_client dispatch0 (chars "D") [bigChunk]
      = HandleOutcome.ioError "Request too large" :=
  handle_client_too_large dispatch0 (chars "D") [bigChunk]
    (by
      intro c hc
      rw [List.mem_singleton] at hc
      subst hc
      intro hnil
      have h0 : bigChunk.length = 0 := by rw [hnil]; rfl
      have h1 : bigChunk.length = 1048576 := List.length_replicate 1048576 'A'
      omega)
    (by
      have hj : ([bigChunk] : List Str).join = bigChunk := by
        rw [show ([bigChunk] : List Str).join = bigChunk ++ [] from rfl, List.append_nil]
      rw [hj]
      unfold containsSeq
      rw [findSub_crlf2_all_A bigChunk (fun a ha => List.eq_of_mem_replicate ha)]
      rfl)
    (by
      have hj : ([bigChunk] : List Str).join = bigChunk := by
        rw [show ([bigChunk] : List Str).join = bigChunk ++ [] from rfl, List.append_nil]
      rw [hj]
      have h1 : bigChunk.length = 1048576 := List.length_replicate 1048576 'A'
      omega)
